import Mathlib

/-!
Verification of the appointment scheduling core of the OdontoLab dental-clinic
backend.  The definitions below are a shallow embedding of the Python source:

* `app/application/services/appointment_service.py` (business hours, status
  transitions, cancellation, reminders, orchestrated create),
* `app/insfraestructure/repositories/appointment_repository.py` (conflict
  detection, create, update, availability slots),
* `app/domain/models/appointment.py` (the `Appointment` entity and its
  `can_be_cancelled` / `end_time` helpers),
* `app/domain/models/user_model.py` (`UserRole`).

Timestamps are modelled as integer minutes since an epoch that falls on a
Monday at 00:00, so that Python's `datetime.weekday()` (Monday = 0 .. Sunday
= 6) becomes `(t / 1440) % 7` with floor/Euclidean semantics, which agree
with Python's `//` and `%` for a positive divisor.  Free text (notes,
cancellation reasons) is modelled as `List Char` so that Python's
`str.strip()` can be reasoned about directly.
-/

deriving instance DecidableEq for Except

namespace OdontoLab

/-- Modelled from the spec: the module `app/domain/models/enums.py` shipped in
the repository snapshot does not contain `AppointmentStatus` (it is imported
by the appointment code but missing from the file).  States follow spec §4.3:
SCHEDULED (initial), CONFIRMED, IN_PROGRESS, COMPLETED, CANCELLED, NO_SHOW. -/
inductive AppointmentStatus where
  | scheduled
  | confirmed
  | in_progress
  | completed
  | cancelled
  | no_show
deriving DecidableEq, Repr, Fintype

/-- Modelled from the spec: `ReminderType` is likewise imported from
`app/domain/models/enums.py` but absent from the snapshot; spec §3 and §4.6
name the channels EMAIL and SMS. -/
inductive ReminderType where
  | email
  | sms
deriving DecidableEq, Repr, Fintype

/-- User roles, from `app/domain/models/user_model.py` (`UserRole`). -/
inductive UserRole where
  | admin
  | dentist
  | receptionist
deriving DecidableEq, Repr, Fintype

/-- A user record as consumed by the appointment service: identity and role. -/
structure User where
  id : Nat
  role : UserRole
deriving DecidableEq, Repr

/-- The `Appointment` entity (`app/domain/models/appointment.py`), with the
fields the scheduling core reads and writes. -/
structure Appointment where
  id : Nat
  patient_id : Nat
  dentist_id : Nat
  scheduled_time : Int
  duration_minutes : Int
  status : AppointmentStatus
  reason : Option (List Char)
  notes : Option (List Char)
  created_by : Option Nat
  updated_at : Int
deriving DecidableEq, Repr

namespace Appointment

/-- The `end_time` property of the model: `scheduled_time +
timedelta(minutes=duration_minutes)`. -/
def end_time (a : Appointment) : Int :=
  a.scheduled_time + a.duration_minutes

/-- The `can_be_cancelled` predicate of the model: status not in
{COMPLETED, CANCELLED, NO_SHOW}. -/
def can_be_cancelled (a : Appointment) : Bool :=
  !(a.status = AppointmentStatus.completed ∨
    a.status = AppointmentStatus.cancelled ∨
    a.status = AppointmentStatus.no_show : Bool)

end Appointment

/-- Python's `datetime.weekday()` under the minutes-since-a-Monday model:
Monday = 0 .. Sunday = 6. -/
def weekdayOf (t : Int) : Int :=
  (t.ediv 1440).emod 7

/-- The hour component of a timestamp, 0 .. 23. -/
def hourOf (t : Int) : Int :=
  (t.emod 1440).ediv 60

/-- The minute component of a timestamp, 0 .. 59. -/
def minuteOf (t : Int) : Int :=
  t.emod 60

/-- Embedding of `AppointmentService._is_within_business_hours`: Sunday
closed, Saturday hour in [8, 13), Monday-Friday hour in [8, 18); only the
weekday and the hour component are consulted. -/
def is_within_business_hours (t : Int) : Bool :=
  if weekdayOf t = 6 then
    false
  else if weekdayOf t = 5 then
    decide (8 ≤ hourOf t ∧ hourOf t < 13)
  else
    decide (8 ≤ hourOf t ∧ hourOf t < 18)

/-- Embedding of the `valid_transitions` table of
`AppointmentService._validate_status_transition`; statuses absent from the
Python dict get the default `[]`. -/
def valid_transitions : AppointmentStatus → List AppointmentStatus
  | .scheduled => [.confirmed, .cancelled, .no_show]
  | .confirmed => [.in_progress, .cancelled, .no_show]
  | .in_progress => [.completed]
  | .completed => []
  | .cancelled => []
  | .no_show => []

/-- Errors surfaced by the appointment service and repository, replacing the
Python exception classes of `app/application/exceptions.py`.  A conflict
error carries the `scheduled_time` of the conflicting appointment that the
Python message interpolates. -/
inductive SchedError where
  | patientNotFound
  | userNotFound
  | notAPractitioner
  | outsideBusinessHours
  | appointmentNotFound
  | authorization
  | conflict (firstConflictTime : Int)
  | invalidTransition (current requested : AppointmentStatus)
  | cannotCancel (current : AppointmentStatus)
deriving DecidableEq, Repr

/-- Embedding of `AppointmentService._validate_status_transition`: raise
`ValidationError` unless the requested status is in the allowed list for the
current status. -/
def validate_status_transition (current requested : AppointmentStatus) :
    Except SchedError Unit :=
  if requested ∈ valid_transitions current then
    Except.ok ()
  else
    Except.error (SchedError.invalidTransition current requested)

/-- Spec-side transition table, transcribed from the claim: SCHEDULED →
{CONFIRMED, CANCELLED, NO_SHOW}, CONFIRMED → {IN_PROGRESS, CANCELLED,
NO_SHOW}, IN_PROGRESS → {COMPLETED}, terminal states admit nothing. -/
def allowedPairSpec (current requested : AppointmentStatus) : Prop :=
  (current, requested) ∈ ([
    (AppointmentStatus.scheduled, AppointmentStatus.confirmed),
    (AppointmentStatus.scheduled, AppointmentStatus.cancelled),
    (AppointmentStatus.scheduled, AppointmentStatus.no_show),
    (AppointmentStatus.confirmed, AppointmentStatus.in_progress),
    (AppointmentStatus.confirmed, AppointmentStatus.cancelled),
    (AppointmentStatus.confirmed, AppointmentStatus.no_show),
    (AppointmentStatus.in_progress, AppointmentStatus.completed)] :
      List (AppointmentStatus × AppointmentStatus))

instance (c r : AppointmentStatus) : Decidable (allowedPairSpec c r) := by
  unfold allowedPairSpec
  infer_instance

/-- Status filter used by the repository conflict and availability queries:
status in {SCHEDULED, CONFIRMED, IN_PROGRESS}. -/
def isActiveStatus (st : AppointmentStatus) : Bool :=
  st == AppointmentStatus.scheduled ||
  st == AppointmentStatus.confirmed ||
  st == AppointmentStatus.in_progress

/-- The three-case overlap disjunction in the SQL query of
`AppointmentRepository._check_conflicts`, clause by clause: the new
appointment starts during the existing one, or ends during it, or completely
contains it.  `s` and `e` are the candidate start and end. -/
def conflictCase (a : Appointment) (s e : Int) : Bool :=
  (decide (a.scheduled_time ≤ s) && decide (s < a.end_time)) ||
  (decide (a.scheduled_time < e) && decide (e ≤ a.end_time)) ||
  (decide (s ≤ a.scheduled_time) && decide (a.end_time ≤ e))

/-- The full row filter of the `_check_conflicts` query: same dentist, active
status, overlap disjunction, and — when an exclude id is given — a different
appointment id. -/
def matchesConflictQuery (dentist_id : Nat) (s e : Int) (excludeId : Option Nat)
    (a : Appointment) : Bool :=
  a.dentist_id == dentist_id && isActiveStatus a.status && conflictCase a s e &&
  (match excludeId with
   | none => true
   | some i => a.id != i)

/-- Result rows of the `_check_conflicts` query, in table order. -/
def findConflicts (db : List Appointment) (dentist_id : Nat)
    (scheduled_time duration_minutes : Int) (excludeId : Option Nat) :
    List Appointment :=
  db.filter
    (matchesConflictQuery dentist_id scheduled_time
      (scheduled_time + duration_minutes) excludeId)

/-- Embedding of `AppointmentRepository._check_conflicts`: raise
`AppointmentConflictError` reporting the first conflicting appointment's time
when the query result is non-empty. -/
def check_conflicts (db : List Appointment) (dentist_id : Nat)
    (scheduled_time duration_minutes : Int) (excludeId : Option Nat) :
    Except SchedError Unit :=
  match findConflicts db dentist_id scheduled_time duration_minutes excludeId with
  | [] => Except.ok ()
  | c :: _ => Except.error (SchedError.conflict c.scheduled_time)

/-- Embedding of `AppointmentRepository.create`: check conflicts first (no
exclude id), then insert.  The second component is the appointment table
after the call; on error nothing is inserted. -/
def repoCreate (db : List Appointment) (data : Appointment) :
    Except SchedError Appointment × List Appointment :=
  match check_conflicts db data.dentist_id data.scheduled_time
      data.duration_minutes none with
  | Except.error e => (Except.error e, db)
  | Except.ok () => (Except.ok data, db ++ [data])

/-- Spec-side half-open overlap rule of §4.1: intervals `[sa, ea)` and
`[sb, eb)` overlap iff `sa < eb` and `sb < ea`. -/
def overlapsSpec (sa ea sb eb : Int) : Prop :=
  sa < eb ∧ sb < ea

instance (sa ea sb eb : Int) : Decidable (overlapsSpec sa ea sb eb) := by
  unfold overlapsSpec
  infer_instance

/-- Spec-side conflict predicate on a stored appointment: same practitioner,
non-terminal status, and half-open overlap with the candidate interval
`[s, e)`. -/
def specConflict (dentist_id : Nat) (s e : Int) (a : Appointment) : Prop :=
  a.dentist_id = dentist_id ∧ isActiveStatus a.status = true ∧
  overlapsSpec a.scheduled_time a.end_time s e

instance (d : Nat) (s e : Int) (a : Appointment) :
    Decidable (specConflict d s e a) := by
  unfold specConflict
  infer_instance

/-- A partial update as produced by `model_dump(exclude_unset=True)` on
`AppointmentUpdate`, or built by hand in the status-update and cancel use
cases: only present keys are applied. -/
structure UpdatePatch where
  scheduled_time : Option Int := none
  duration_minutes : Option Int := none
  status : Option AppointmentStatus := none
  reason : Option (List Char) := none
  notes : Option (List Char) := none
deriving DecidableEq, Repr

/-- The field merge of `AppointmentRepository.update`: copy every present
field onto the entity and stamp `updated_at` with the current time. -/
def applyPatch (a : Appointment) (p : UpdatePatch) (now : Int) : Appointment :=
  { a with
    scheduled_time := p.scheduled_time.getD a.scheduled_time
    duration_minutes := p.duration_minutes.getD a.duration_minutes
    status := p.status.getD a.status
    reason := match p.reason with
      | none => a.reason
      | some r => some r
    notes := match p.notes with
      | none => a.notes
      | some n => some n
    updated_at := now }

/-- Embedding of `AppointmentRepository.update`: load by id, re-check
conflicts only when the patch touches `scheduled_time` or `duration_minutes`
(then excluding the appointment's own id from the search), then merge the
fields.  The second component is the appointment table after the call; on
error it is unchanged. -/
def repoUpdate (db : List Appointment) (appointment_id : Nat)
    (p : UpdatePatch) (now : Int) :
    Except SchedError Appointment × List Appointment :=
  match db.find? (fun a => a.id == appointment_id) with
  | none => (Except.error SchedError.appointmentNotFound, db)
  | some a =>
    let chk : Except SchedError Unit :=
      if p.scheduled_time.isSome || p.duration_minutes.isSome then
        check_conflicts db a.dentist_id
          (p.scheduled_time.getD a.scheduled_time)
          (p.duration_minutes.getD a.duration_minutes)
          (some appointment_id)
      else Except.ok ()
    match chk with
    | Except.error e => (Except.error e, db)
    | Except.ok () =>
      (Except.ok (applyPatch a p now),
       db.map (fun x => if x.id = appointment_id then applyPatch x p now else x))

/-- Whitespace characters stripped by Python's `str.strip()`:
space, tab, newline, carriage return, vertical tab, form feed. -/
def isPyWS (c : Char) : Bool :=
  c == ' ' || c == '\t' || c == '\n' || c == '\r' ||
  c == Char.ofNat 11 || c == Char.ofNat 12

/-- Python's `str.lstrip()` over a character list. -/
def pyLStrip (s : List Char) : List Char :=
  s.dropWhile isPyWS

/-- Python's `str.rstrip()` over a character list. -/
def pyRStrip (s : List Char) : List Char :=
  (s.reverse.dropWhile isPyWS).reverse

/-- Python's `str.strip()` over a character list. -/
def pyStrip (s : List Char) : List Char :=
  pyRStrip (pyLStrip s)

/-- The characters of the fixed marker `[CANCELLATION] ` (note the trailing
space) interpolated by `cancel_appointment`. -/
def cancellationTag : List Char :=
  ['[', 'C', 'A', 'N', 'C', 'E', 'L', 'L', 'A', 'T', 'I', 'O', 'N', ']', ' ']

/-- The notes value written by `cancel_appointment` when a reason is given:
`f"{current_notes}\n[CANCELLATION] {reason}".strip()` with
`current_notes = appointment.notes or ""`. -/
def cancellationNotes (notes : Option (List Char)) (reason : List Char) :
    List Char :=
  pyStrip (notes.getD [] ++ '\n' :: cancellationTag ++ reason)

/-- Python truthiness of an optional string: `None` and the empty string are
falsy. -/
def strTruthy : Option (List Char) → Bool
  | none => false
  | some s => !s.isEmpty

/-- Embedding of
`AppointmentService._check_appointment_modification_access`: administrators
and receptionists may modify any appointment, a dentist only their own. -/
def check_appointment_modification_access (a : Appointment) (u : User) : Bool :=
  u.role == UserRole.admin || u.role == UserRole.receptionist ||
  (u.role == UserRole.dentist && a.dentist_id == u.id)

/-- Embedding of `AppointmentService.cancel_appointment`: load, authorize,
require `can_be_cancelled`, then update the status to CANCELLED, appending a
truthy reason to the notes behind the `[CANCELLATION]` marker.  The second
component is the appointment table after the call; on error it is
unchanged. -/
def cancel_appointment (db : List Appointment) (appointment_id : Nat)
    (current_user : User) (reason : Option (List Char)) (now : Int) :
    Except SchedError Appointment × List Appointment :=
  match db.find? (fun a => a.id == appointment_id) with
  | none => (Except.error SchedError.appointmentNotFound, db)
  | some a =>
    if !check_appointment_modification_access a current_user then
      (Except.error SchedError.authorization, db)
    else if !a.can_be_cancelled then
      (Except.error (SchedError.cannotCancel a.status), db)
    else
      repoUpdate db appointment_id
        { status := some AppointmentStatus.cancelled
          notes := if strTruthy reason then
              some (cancellationNotes a.notes (reason.getD []))
            else none }
        now

/-- An `AppointmentReminder` record as created by the reminder scheduler:
channel and fire time (`sent` starts false and is not touched here). -/
structure Reminder where
  reminder_type : ReminderType
  scheduled_for : Int
deriving DecidableEq, Repr

/-- Embedding of `AppointmentService._create_automatic_reminders`: an EMAIL
reminder at `scheduled_time - 24h` and an SMS reminder at
`scheduled_time - 2h`, each only when its fire time is strictly after `now`
(the moment of planning). -/
def create_automatic_reminders (a : Appointment) (now : Int) : List Reminder :=
  (if now < a.scheduled_time - 1440 then
    [⟨ReminderType.email, a.scheduled_time - 1440⟩]
  else []) ++
  (if now < a.scheduled_time - 120 then
    [⟨ReminderType.sms, a.scheduled_time - 120⟩]
  else [])

/-- A `TimeSlot` as returned by `check_availability`: derived, non-persistent
`{start, end, available}`. -/
structure TimeSlot where
  start_time : Int
  end_time : Int
  available : Bool
deriving DecidableEq, Repr

/-- The fetch of `AppointmentRepository.check_availability`: appointments of
the dentist whose `scheduled_time` lies in `[startDT, endDT)` with a
non-terminal status.  The SQL also orders by `scheduled_time`; the ordering
is irrelevant to the availability verdict (an all-quantified overlap test),
so table order is kept. -/
def fetchDayAppointments (db : List Appointment) (dentist_id : Nat)
    (startDT endDT : Int) : List Appointment :=
  db.filter (fun a => a.dentist_id == dentist_id &&
    decide (startDT ≤ a.scheduled_time) && decide (a.scheduled_time < endDT) &&
    isActiveStatus a.status)

/-- The per-slot verdict of the Python loop: available unless some fetched
appointment violates `slot_end <= apt.scheduled_time or current >= apt_end`. -/
def slotAvailable (existing : List Appointment) (cur slotEnd : Int) : Bool :=
  existing.all (fun apt =>
    decide (slotEnd ≤ apt.scheduled_time) || decide (apt.end_time ≤ cur))

/-- The slot-generation `while` loop of `check_availability`: advance by the
slot duration while `current < endDT`, breaking before emitting a slot that
would extend past `endDT`.  The Python loop terminates whenever the slot
duration is positive; the fuel argument bounds the number of iterations so
the embedding is total. -/
def slotLoop (existing : List Appointment) (endDT d : Int) :
    Int → Nat → List TimeSlot
  | _, 0 => []
  | cur, Nat.succ fuel =>
    if cur < endDT then
      if endDT < cur + d then []
      else
        ⟨cur, cur + d, slotAvailable existing cur (cur + d)⟩ ::
          slotLoop existing endDT d (cur + d) fuel
    else []

/-- Embedding of `AppointmentRepository.check_availability`: fetch the day's
non-terminal appointments once, then walk the window in fixed steps.  The
fuel `(endDT - startDT).toNat + 1` exceeds the iteration count whenever the
slot duration is at least one minute. -/
def check_availability (db : List Appointment) (dentist_id : Nat)
    (startDT endDT d : Int) : List TimeSlot :=
  slotLoop (fetchDayAppointments db dentist_id startDT endDT) endDT d startDT
    ((endDT - startDT).toNat + 1)

/-- The slot with index `i` in the generated grid. -/
def slotAt (existing : List Appointment) (startDT d : Int) (i : Nat) :
    TimeSlot :=
  ⟨startDT + i * d, startDT + (i + 1) * d,
    slotAvailable existing (startDT + i * d) (startDT + (i + 1) * d)⟩

/-- A create request after schema validation (`AppointmentCreate`). -/
structure AppointmentCreate where
  patient_id : Nat
  dentist_id : Nat
  scheduled_time : Int
  duration_minutes : Int
  reason : Option (List Char)
  notes : Option (List Char)
deriving DecidableEq, Repr

/-- Embedding of `AppointmentService.create_appointment`: validate patient
existence, resolve the dentist and require role DENTIST or ADMIN, validate
business hours, then delegate to the repository create (which performs the
conflict check) and plan the automatic reminders.  The second component is
the appointment table after the call; on error it is unchanged. -/
def create_appointment (patients : List Nat) (users : List User)
    (db : List Appointment) (req : AppointmentCreate) (current_user : User)
    (newId : Nat) (now : Int) :
    Except SchedError (Appointment × List Reminder) × List Appointment :=
  if ¬ req.patient_id ∈ patients then
    (Except.error SchedError.patientNotFound, db)
  else
    match users.find? (fun u => u.id == req.dentist_id) with
    | none => (Except.error SchedError.userNotFound, db)
    | some dentist =>
      if dentist.role ≠ UserRole.dentist ∧ dentist.role ≠ UserRole.admin then
        (Except.error SchedError.notAPractitioner, db)
      else if ¬ is_within_business_hours req.scheduled_time then
        (Except.error SchedError.outsideBusinessHours, db)
      else
        match repoCreate db
          { id := newId
            patient_id := req.patient_id
            dentist_id := req.dentist_id
            scheduled_time := req.scheduled_time
            duration_minutes := req.duration_minutes
            status := AppointmentStatus.scheduled
            reason := req.reason
            notes := req.notes
            created_by := some current_user.id
            updated_at := now } with
        | (Except.error e, db2) => (Except.error e, db2)
        | (Except.ok apt, db2) =>
          (Except.ok (apt, create_automatic_reminders apt now), db2)

/-- C2: the status-transition validator succeeds exactly on the pairs of the
spec table and raises a `ValidationError` (here `invalidTransition`) on every
other pair, including all transitions out of a terminal state and all
self-transitions. -/
theorem transition_validator_matches_table :
    ∀ current requested : AppointmentStatus,
      (validate_status_transition current requested = Except.ok () ↔
        allowedPairSpec current requested) ∧
      (¬ allowedPairSpec current requested →
        validate_status_transition current requested =
          Except.error (SchedError.invalidTransition current requested)) ∧
      (validate_status_transition current current =
        Except.error (SchedError.invalidTransition current current)) ∧
      (current = AppointmentStatus.completed ∨
       current = AppointmentStatus.cancelled ∨
       current = AppointmentStatus.no_show →
        validate_status_transition current requested =
          Except.error (SchedError.invalidTransition current requested)) := by
  decide

/-- Witness for C2 at concrete inputs: SCHEDULED → CONFIRMED succeeds and
COMPLETED → SCHEDULED fails. -/
theorem transition_validator_matches_table_witness :
    validate_status_transition AppointmentStatus.scheduled
        AppointmentStatus.confirmed = Except.ok () ∧
    validate_status_transition AppointmentStatus.completed
        AppointmentStatus.scheduled =
      Except.error (SchedError.invalidTransition AppointmentStatus.completed
        AppointmentStatus.scheduled) := by
  have h := transition_validator_matches_table AppointmentStatus.scheduled
    AppointmentStatus.confirmed
  have h2 := transition_validator_matches_table AppointmentStatus.completed
    AppointmentStatus.scheduled
  exact ⟨h.1.mpr (by decide), h2.2.1 (by decide)⟩

theorem weekdayOf_nonneg (t : Int) : 0 ≤ weekdayOf t :=
  Int.emod_nonneg _ (by decide)

theorem weekdayOf_lt (t : Int) : weekdayOf t < 7 :=
  Int.emod_lt_of_pos _ (by decide)

/-- C3: the business-hours check is true exactly on Monday-Friday with hour
in [8, 18) or Saturday with hour in [8, 13); Sunday is always false; and two
timestamps with equal weekday and hour components are classified identically
(only the hour is consulted, so minutes and duration are irrelevant). -/
theorem business_hours_matches_policy (t : Int) :
    (is_within_business_hours t = true ↔
      ((weekdayOf t < 5 ∧ 8 ≤ hourOf t ∧ hourOf t < 18) ∨
       (weekdayOf t = 5 ∧ 8 ≤ hourOf t ∧ hourOf t < 13))) ∧
    (weekdayOf t = 6 → is_within_business_hours t = false) ∧
    (∀ u : Int, weekdayOf u = weekdayOf t → hourOf u = hourOf t →
      is_within_business_hours u = is_within_business_hours t) := by
  have h0 := weekdayOf_nonneg t
  have h7 := weekdayOf_lt t
  refine ⟨?_, ?_, ?_⟩
  · constructor
    · intro h
      unfold is_within_business_hours at h
      split_ifs at h with hw6 hw5
      · exact Or.inr ⟨hw5, of_decide_eq_true h⟩
      · have hh := of_decide_eq_true h
        exact Or.inl ⟨by omega, hh⟩
    · intro h
      unfold is_within_business_hours
      split_ifs with hw6 hw5
      · rcases h with ⟨h1, _⟩ | ⟨h1, _⟩ <;> omega
      · simp only [decide_eq_true_eq]
        rcases h with ⟨h1, h2, h3⟩ | ⟨h1, h2, h3⟩ <;> omega
      · simp only [decide_eq_true_eq]
        rcases h with ⟨h1, h2, h3⟩ | ⟨h1, h2, h3⟩ <;> omega
  · intro hw6
    simp [is_within_business_hours, hw6]
  · intro u hw hh
    simp only [is_within_business_hours, hw, hh]

/-- Witness for C3 at concrete boundary inputs (Monday 07:59, 08:00, 17:45,
17:59, 18:00; Saturday 12:59 and 13:00; Sunday 10:00). -/
theorem business_hours_matches_policy_witness :
    is_within_business_hours 479 = false ∧
    is_within_business_hours 480 = true ∧
    is_within_business_hours 1065 = true ∧
    is_within_business_hours 1079 = true ∧
    is_within_business_hours 1080 = false ∧
    is_within_business_hours 7979 = true ∧
    is_within_business_hours 7980 = false ∧
    is_within_business_hours 9240 = false := by
  have h := business_hours_matches_policy 1065
  refine ⟨by decide, by decide, ?_, by decide, by decide, by decide, by decide, ?_⟩
  · exact h.1.mpr (by decide)
  · exact (business_hours_matches_policy 9240).2.1 (by decide)

/-- For positive durations the code's three-case disjunction coincides with
the half-open overlap rule of the spec. -/
theorem conflictCase_iff_overlap (a : Appointment) (s e : Int)
    (hcand : s < e) (ha : 0 < a.duration_minutes) :
    conflictCase a s e = true ↔ overlapsSpec a.scheduled_time a.end_time s e := by
  unfold conflictCase overlapsSpec Appointment.end_time at *
  simp only [Bool.or_eq_true, Bool.and_eq_true, decide_eq_true_eq]
  omega

theorem matchesConflictQuery_eq_spec (d : Nat) (s e : Int) (a : Appointment)
    (hcand : s < e) (ha : 0 < a.duration_minutes) :
    matchesConflictQuery d s e none a = decide (specConflict d s e a) := by
  rw [Bool.eq_iff_iff]
  simp only [matchesConflictQuery, Bool.and_eq_true, beq_iff_eq,
    decide_eq_true_eq, specConflict]
  rw [conflictCase_iff_overlap a s e hcand ha]
  tauto

/-- Under the duration invariant (durations are positive, enforced by the
schema bound 5-480), the conflict query returns exactly the rows satisfying
the spec-side conflict predicate, in table order. -/
theorem findConflicts_eq_filter_spec (db : List Appointment) (d : Nat)
    (s dur : Int) (hdur : 0 < dur)
    (hdb : ∀ a ∈ db, 0 < a.duration_minutes) :
    findConflicts db d s dur none =
      db.filter (fun a => decide (specConflict d s (s + dur) a)) := by
  unfold findConflicts
  apply List.filter_congr
  intro a ha
  exact matchesConflictQuery_eq_spec d s (s + dur) a (by omega) (hdb a ha)

theorem head_filter_eq_find (p : α → Bool) (l : List α) :
    (l.filter p).head? = l.find? p := by
  induction l with
  | nil => rfl
  | cons a l ih =>
    by_cases h : p a <;> simp [List.filter_cons, List.find?_cons, h, ih]

/-- C1: the repository create operation raises a conflict error iff some
stored appointment of the same dentist with non-terminal status overlaps the
candidate interval under the half-open rule; on error nothing is inserted and
the error reports the first (in table order) conflicting appointment's time;
otherwise the appointment is appended and carries status SCHEDULED. -/
theorem repo_create_conflict_spec (db : List Appointment) (data : Appointment)
    (hdur : 0 < data.duration_minutes)
    (hdb : ∀ a ∈ db, 0 < a.duration_minutes)
    (hst : data.status = AppointmentStatus.scheduled) :
    ((∃ e, (repoCreate db data).1 = Except.error e) ↔
      ∃ a ∈ db, specConflict data.dentist_id data.scheduled_time
        (data.scheduled_time + data.duration_minutes) a) ∧
    (∀ e, (repoCreate db data).1 = Except.error e →
      (repoCreate db data).2 = db ∧
      ∃ a, db.find? (fun x => decide (specConflict data.dentist_id
            data.scheduled_time
            (data.scheduled_time + data.duration_minutes) x)) = some a ∧
        e = SchedError.conflict a.scheduled_time) ∧
    (∀ created, (repoCreate db data).1 = Except.ok created →
      (repoCreate db data).2 = db ++ [data] ∧ created = data ∧
      created.status = AppointmentStatus.scheduled) := by
  have hfe := findConflicts_eq_filter_spec db data.dentist_id
    data.scheduled_time data.duration_minutes hdur hdb
  unfold repoCreate check_conflicts
  rw [hfe]
  cases hcase : db.filter (fun a => decide (specConflict data.dentist_id
      data.scheduled_time (data.scheduled_time + data.duration_minutes) a)) with
  | nil =>
    refine ⟨?_, ?_, ?_⟩
    · constructor
      · rintro ⟨e, he⟩
        exact absurd he (by simp)
      · rintro ⟨a, ha, hspec⟩
        have : a ∈ db.filter (fun a => decide (specConflict data.dentist_id
            data.scheduled_time
            (data.scheduled_time + data.duration_minutes) a)) := by
          rw [List.mem_filter]
          exact ⟨ha, by simpa using hspec⟩
        rw [hcase] at this
        exact absurd this (by simp)
    · intro e he
      exact absurd he (by simp)
    · intro created hok
      simp only [Except.ok.injEq] at hok
      exact ⟨rfl, hok.symm, hok ▸ hst⟩
  | cons c cs =>
    refine ⟨?_, ?_, ?_⟩
    · constructor
      · rintro ⟨e, _⟩
        have : c ∈ db.filter (fun a => decide (specConflict data.dentist_id
            data.scheduled_time
            (data.scheduled_time + data.duration_minutes) a)) := by
          rw [hcase]; exact List.mem_cons_self c cs
        rw [List.mem_filter] at this
        exact ⟨c, this.1, by simpa using this.2⟩
      · intro _
        exact ⟨SchedError.conflict c.scheduled_time, rfl⟩
    · intro e he
      refine ⟨rfl, c, ?_, ?_⟩
      · rw [← head_filter_eq_find, hcase]
        rfl
      · simp only [Except.error.injEq] at he
        exact he.symm
    · intro created hok
      exact absurd hok (by simp)

/-- Witness for C1: a dentist with an appointment 10:00-10:30 rejects a new
9:45-10:15 booking (reporting the stored appointment's time) and accepts a
10:30-11:00 booking, which is appended with status SCHEDULED. -/
theorem repo_create_conflict_spec_witness :
    (repoCreate [⟨1, 1, 2, 600, 30, AppointmentStatus.scheduled, none, none,
        none, 0⟩]
      ⟨2, 3, 2, 585, 30, AppointmentStatus.scheduled, none, none, none, 0⟩).1 =
      Except.error (SchedError.conflict 600) ∧
    (repoCreate [⟨1, 1, 2, 600, 30, AppointmentStatus.scheduled, none, none,
        none, 0⟩]
      ⟨2, 3, 2, 630, 30, AppointmentStatus.scheduled, none, none, none, 0⟩).2 =
      [⟨1, 1, 2, 600, 30, AppointmentStatus.scheduled, none, none, none, 0⟩,
       ⟨2, 3, 2, 630, 30, AppointmentStatus.scheduled, none, none, none, 0⟩] := by
  have h := repo_create_conflict_spec
    [⟨1, 1, 2, 600, 30, AppointmentStatus.scheduled, none, none, none, 0⟩]
    ⟨2, 3, 2, 585, 30, AppointmentStatus.scheduled, none, none, none, 0⟩
    (by decide) (by decide) (by decide)
  have h2 := repo_create_conflict_spec
    [⟨1, 1, 2, 600, 30, AppointmentStatus.scheduled, none, none, none, 0⟩]
    ⟨2, 3, 2, 630, 30, AppointmentStatus.scheduled, none, none, none, 0⟩
    (by decide) (by decide) (by decide)
  exact ⟨by decide, by decide⟩

theorem matchesConflictQuery_eq_spec_ex (d excludeId : Nat) (s e : Int)
    (b : Appointment) (hcand : s < e) (hb : 0 < b.duration_minutes) :
    matchesConflictQuery d s e (some excludeId) b =
      decide (b.id ≠ excludeId ∧ specConflict d s e b) := by
  rw [Bool.eq_iff_iff]
  simp only [matchesConflictQuery, Bool.and_eq_true, beq_iff_eq, bne_iff_ne,
    decide_eq_true_eq, specConflict]
  rw [conflictCase_iff_overlap b s e hcand hb]
  tauto

/-- With an exclude id, the conflict query returns exactly the rows with a
different id that satisfy the spec-side conflict predicate. -/
theorem findConflicts_eq_filter_spec_ex (db : List Appointment)
    (d excludeId : Nat) (s dur : Int) (hdur : 0 < dur)
    (hdb : ∀ a ∈ db, 0 < a.duration_minutes) :
    findConflicts db d s dur (some excludeId) =
      db.filter (fun b =>
        decide (b.id ≠ excludeId ∧ specConflict d s (s + dur) b)) := by
  unfold findConflicts
  apply List.filter_congr
  intro b hb
  exact matchesConflictQuery_eq_spec_ex d excludeId s (s + dur) b
    (by omega) (hdb b hb)

/-- C7: the update operation re-runs the conflict check only when the patch
contains `scheduled_time` or `duration_minutes`; when it does, the search
excludes the appointment's own id, so a new interval that overlaps only the
appointment itself is never rejected; and every conflict it does report comes
from a different appointment of the same dentist whose interval overlaps the
new candidate interval. -/
theorem update_self_exclusion (db : List Appointment) (appointment_id : Nat)
    (p : UpdatePatch) (now : Int)
    (hdb : ∀ a ∈ db, 0 < a.duration_minutes)
    (hp : ∀ m, p.duration_minutes = some m → 0 < m) :
    (p.scheduled_time = none → p.duration_minutes = none →
      ∀ t, (repoUpdate db appointment_id p now).1 ≠
        Except.error (SchedError.conflict t)) ∧
    (∀ a, db.find? (fun x => x.id == appointment_id) = some a →
      (∀ b ∈ db, b.id ≠ appointment_id →
        ¬ specConflict a.dentist_id (p.scheduled_time.getD a.scheduled_time)
          (p.scheduled_time.getD a.scheduled_time +
            p.duration_minutes.getD a.duration_minutes) b) →
      (repoUpdate db appointment_id p now).1 =
        Except.ok (applyPatch a p now)) ∧
    (∀ a t, db.find? (fun x => x.id == appointment_id) = some a →
      (repoUpdate db appointment_id p now).1 =
        Except.error (SchedError.conflict t) →
      ∃ b ∈ db, b.id ≠ appointment_id ∧
        specConflict a.dentist_id (p.scheduled_time.getD a.scheduled_time)
          (p.scheduled_time.getD a.scheduled_time +
            p.duration_minutes.getD a.duration_minutes) b ∧
        t = b.scheduled_time) := by
  refine ⟨?_, ?_, ?_⟩
  · intro hs hd t
    unfold repoUpdate
    cases hf : db.find? (fun a => a.id == appointment_id) with
    | none => simp
    | some a => simp [hs, hd]
  · intro a hf hnone
    have hdura : 0 < a.duration_minutes := by
      have := List.find?_some hf
      have hmem := List.mem_of_find?_eq_some hf
      exact hdb a hmem
    have hdur2 : 0 < p.duration_minutes.getD a.duration_minutes := by
      cases hdm : p.duration_minutes with
      | none => simpa using hdura
      | some m => simpa using hp m hdm
    unfold repoUpdate
    rw [hf]
    by_cases hsome : p.scheduled_time.isSome || p.duration_minutes.isSome
    · simp only [hsome, if_true]
      have hfe := findConflicts_eq_filter_spec_ex db a.dentist_id
        appointment_id (p.scheduled_time.getD a.scheduled_time)
        (p.duration_minutes.getD a.duration_minutes) hdur2 hdb
      have hnil : db.filter (fun b =>
          decide (b.id ≠ appointment_id ∧ specConflict a.dentist_id
            (p.scheduled_time.getD a.scheduled_time)
            (p.scheduled_time.getD a.scheduled_time +
              p.duration_minutes.getD a.duration_minutes) b)) = [] := by
        rw [List.filter_eq_nil_iff]
        intro b hb
        simp only [decide_eq_true_eq, not_and]
        intro hid
        exact hnone b hb hid
      unfold check_conflicts
      rw [hfe, hnil]
    · simp [hsome]
  · intro a t hf herr
    unfold repoUpdate at herr
    rw [hf] at herr
    by_cases hsome : p.scheduled_time.isSome || p.duration_minutes.isSome
    · have hdura : 0 < a.duration_minutes :=
        hdb a (List.mem_of_find?_eq_some hf)
      have hdur2 : 0 < p.duration_minutes.getD a.duration_minutes := by
        cases hdm : p.duration_minutes with
        | none => simpa using hdura
        | some m => simpa using hp m hdm
      have hfe := findConflicts_eq_filter_spec_ex db a.dentist_id
        appointment_id (p.scheduled_time.getD a.scheduled_time)
        (p.duration_minutes.getD a.duration_minutes) hdur2 hdb
      simp only [hsome, if_true] at herr
      unfold check_conflicts at herr
      rw [hfe] at herr
      cases hcase : db.filter (fun b =>
          decide (b.id ≠ appointment_id ∧ specConflict a.dentist_id
            (p.scheduled_time.getD a.scheduled_time)
            (p.scheduled_time.getD a.scheduled_time +
              p.duration_minutes.getD a.duration_minutes) b)) with
      | nil =>
        rw [hcase] at herr
        simp at herr
      | cons c cs =>
        rw [hcase] at herr
        simp only [Prod.fst, Except.error.injEq, SchedError.conflict.injEq] at herr
        have hmem : c ∈ db.filter (fun b =>
            decide (b.id ≠ appointment_id ∧ specConflict a.dentist_id
              (p.scheduled_time.getD a.scheduled_time)
              (p.scheduled_time.getD a.scheduled_time +
                p.duration_minutes.getD a.duration_minutes) b)) := by
          rw [hcase]
          exact List.mem_cons_self c cs
        rw [List.mem_filter] at hmem
        have hc := of_decide_eq_true hmem.2
        exact ⟨c, hmem.1, hc.1, hc.2, herr.symm⟩
    · simp only [hsome, if_false] at herr
      simp at herr

/-- Witness for C7: moving an appointment to a sub-interval of itself (10:00
duration 30 to 10:00 duration 15) succeeds even though the new interval
overlaps the stored row, because the row is the appointment itself. -/
theorem update_self_exclusion_witness :
    (repoUpdate
      [⟨1, 1, 2, 600, 30, AppointmentStatus.scheduled, none, none, none, 0⟩]
      1 { scheduled_time := some 600, duration_minutes := some 15 } 5).1 =
      Except.ok ⟨1, 1, 2, 600, 15, AppointmentStatus.scheduled, none, none,
        none, 5⟩ := by
  have h := update_self_exclusion
    [⟨1, 1, 2, 600, 30, AppointmentStatus.scheduled, none, none, none, 0⟩]
    1 { scheduled_time := some 600, duration_minutes := some 15 } 5
    (by decide) (by intro m hm; cases hm; decide)
  have h2 := h.2.1
    ⟨1, 1, 2, 600, 30, AppointmentStatus.scheduled, none, none, none, 0⟩
    (by decide) (by decide)
  exact h2

theorem length_dropWhile_le (f : α → Bool) (l : List α) :
    (List.dropWhile f l).length ≤ l.length := by
  induction l with
  | nil => simp [List.dropWhile]
  | cons a l ih =>
    rw [List.dropWhile_cons]
    split
    · exact Nat.le_trans ih (by simp)
    · simp

theorem dropWhile_cons_eq_self (f : α → Bool) (c : α) (l : List α)
    (h : List.dropWhile f (c :: l) = c :: l) : f c = false := by
  by_contra hc
  rw [Bool.not_eq_false] at hc
  rw [List.dropWhile_cons, if_pos hc] at h
  have hlen := congrArg List.length h
  have hle := length_dropWhile_le f l
  simp only [List.length_cons] at hlen
  omega

theorem pyLStrip_append_of_nonempty (p q : List Char) (hpne : p ≠ [])
    (hp : pyLStrip p = p) : pyLStrip (p ++ q) = p ++ q := by
  cases p with
  | nil => exact absurd rfl hpne
  | cons c cl =>
    have hc : isPyWS c = false := dropWhile_cons_eq_self isPyWS c cl hp
    unfold pyLStrip
    rw [List.cons_append, List.dropWhile_cons, if_neg (by simp [hc])]

theorem pyRStrip_append_of_nonempty (q r : List Char) (hrne : r ≠ [])
    (hr : pyRStrip r = r) : pyRStrip (q ++ r) = q ++ r := by
  have hself : List.dropWhile isPyWS r.reverse = r.reverse := by
    have h2 := congrArg List.reverse hr
    unfold pyRStrip at h2
    rwa [List.reverse_reverse] at h2
  cases hc : r.reverse with
  | nil =>
    simp only [List.reverse_eq_nil_iff] at hc
    exact absurd hc hrne
  | cons c cl =>
    rw [hc] at hself
    have hcws : isPyWS c = false := dropWhile_cons_eq_self isPyWS c cl hself
    unfold pyRStrip
    rw [List.reverse_append, hc, List.cons_append,
      List.dropWhile_cons, if_neg (by simp [hcws])]
    have hback : c :: (cl ++ q.reverse) = (q ++ r).reverse := by
      rw [List.reverse_append, hc, List.cons_append]
    rw [hback, List.reverse_reverse]

/-- When the prior notes have no leading whitespace and the reason has no
trailing whitespace, the strip in the cancellation path is the identity and
the new notes are exactly the prior notes, a newline, the marker, and the
reason. -/
theorem cancellationNotes_of_nonempty (p r : List Char) (hpne : p ≠ [])
    (hp : pyLStrip p = p) (hrne : r ≠ []) (hr : pyRStrip r = r) :
    cancellationNotes (some p) r = p ++ '\n' :: cancellationTag ++ r := by
  unfold cancellationNotes pyStrip
  simp only [Option.getD_some]
  rw [List.append_assoc]
  rw [pyLStrip_append_of_nonempty p ('\n' :: cancellationTag ++ r) hpne hp]
  rw [← List.append_assoc]
  rw [pyRStrip_append_of_nonempty (p ++ '\n' :: cancellationTag) r hrne hr]

/-- With empty prior notes the leading newline is stripped and the new notes
are the marker followed by the reason. -/
theorem cancellationNotes_of_empty (notes : Option (List Char))
    (r : List Char) (hn : notes.getD [] = []) (hrne : r ≠ [])
    (hr : pyRStrip r = r) :
    cancellationNotes notes r = cancellationTag ++ r := by
  unfold cancellationNotes pyStrip
  rw [hn]
  simp only [List.nil_append]
  have hl : pyLStrip (('\n' :: cancellationTag) ++ r) = cancellationTag ++ r := by
    unfold pyLStrip
    rw [List.cons_append, List.dropWhile_cons, if_pos (by decide)]
    unfold cancellationTag
    rw [List.cons_append, List.dropWhile_cons, if_neg (by decide)]
  rw [hl, pyRStrip_append_of_nonempty cancellationTag r hrne hr]

/-- C6: for an existing appointment and an authorized caller, cancel raises
a `ValidationError` (here `cannotCancel`) exactly when the status is
COMPLETED, CANCELLED or NO_SHOW (`can_be_cancelled` false), leaving the table
unchanged on failure; otherwise it succeeds with status CANCELLED, and a
non-empty reason produces notes equal to the prior notes followed by the
`[CANCELLATION]` marker and the reason (prior notes are kept as a prefix, not
replaced). -/
theorem cancel_validation_and_notes (db : List Appointment)
    (appointment_id : Nat) (u : User) (reason : Option (List Char)) (now : Int)
    (a : Appointment)
    (hfind : db.find? (fun x => x.id == appointment_id) = some a)
    (hauth : check_appointment_modification_access a u = true) :
    ((cancel_appointment db appointment_id u reason now).1 =
        Except.error (SchedError.cannotCancel a.status) ↔
      (a.status = AppointmentStatus.completed ∨
       a.status = AppointmentStatus.cancelled ∨
       a.status = AppointmentStatus.no_show)) ∧
    (a.can_be_cancelled = false ↔
      (a.status = AppointmentStatus.completed ∨
       a.status = AppointmentStatus.cancelled ∨
       a.status = AppointmentStatus.no_show)) ∧
    (a.can_be_cancelled = false →
      (cancel_appointment db appointment_id u reason now).2 = db) ∧
    (a.can_be_cancelled = true →
      ∃ a2, (cancel_appointment db appointment_id u reason now).1 =
        Except.ok a2 ∧ a2.status = AppointmentStatus.cancelled) ∧
    (∀ r, a.can_be_cancelled = true → reason = some r → r ≠ [] →
      pyRStrip r = r → pyLStrip (a.notes.getD []) = a.notes.getD [] →
      ∃ a2, (cancel_appointment db appointment_id u reason now).1 =
        Except.ok a2 ∧
        a2.notes = some (if a.notes.getD [] = [] then cancellationTag ++ r
          else a.notes.getD [] ++ '\n' :: cancellationTag ++ r)) := by
  have hcb : a.can_be_cancelled = false ↔
      (a.status = AppointmentStatus.completed ∨
       a.status = AppointmentStatus.cancelled ∨
       a.status = AppointmentStatus.no_show) := by
    cases ha : a.status <;> simp [Appointment.can_be_cancelled, ha]
  refine ⟨?_, hcb, ?_, ?_, ?_⟩
  · by_cases hc : a.can_be_cancelled
    · constructor
      · intro herr
        unfold cancel_appointment at herr
        rw [hfind] at herr
        simp only [hauth, Bool.not_true, Bool.false_eq_true, if_false,
          hc, if_true] at herr
        unfold repoUpdate at herr
        rw [hfind] at herr
        simp at herr
      · intro hst
        rw [← hcb] at hst
        rw [hst] at hc
        simp at hc
    · rw [Bool.not_eq_true] at hc
      unfold cancel_appointment
      rw [hfind]
      simp only [hauth, Bool.not_true, Bool.false_eq_true, if_false, hc,
        Bool.not_false, if_true]
      rw [hcb] at hc
      tauto
  · intro hc
    unfold cancel_appointment
    rw [hfind]
    simp [hauth, hc]
  · intro hc
    unfold cancel_appointment repoUpdate
    rw [hfind]
    simp [hauth, hc, applyPatch]
  · intro r hc hres hrne hr hp
    unfold cancel_appointment repoUpdate
    rw [hfind]
    simp only [hauth, Bool.not_true, Bool.false_eq_true, if_false, hc,
      Bool.not_false, if_true]
    simp only [hres, strTruthy]
    have htr : (!r.isEmpty) = true := by
      cases r with
      | nil => exact absurd rfl hrne
      | cons c cl => simp [List.isEmpty]
    simp only [htr, if_true, Option.isSome_none, Bool.or_self, Bool.false_eq_true,
      if_false]
    refine ⟨applyPatch a _ now, rfl, ?_⟩
    simp only [applyPatch, Option.getD_some]
    by_cases hnil : a.notes.getD [] = []
    · rw [if_pos hnil]
      rw [cancellationNotes_of_empty a.notes r hnil hrne hr]
    · rw [if_neg hnil]
      cases hnote : a.notes with
      | none => rw [hnote] at hnil; simp at hnil
      | some p =>
        rw [hnote] at hnil hp
        simp only [Option.getD_some] at hnil hp ⊢
        rw [cancellationNotes_of_nonempty p r hnil hp hrne hr]

/-- Witness for C6: cancelling a SCHEDULED appointment with prior notes
`ok` and reason `sick` succeeds and yields notes
`ok<newline>[CANCELLATION] sick`, while cancelling a COMPLETED appointment
fails with the appointment unchanged. -/
theorem cancel_validation_and_notes_witness :
    (∃ a2, (cancel_appointment
        [⟨1, 1, 2, 600, 30, AppointmentStatus.scheduled, none,
          some ['o', 'k'], none, 0⟩] 1 ⟨9, UserRole.admin⟩
        (some ['s', 'i', 'c', 'k']) 5).1 = Except.ok a2 ∧
      a2.notes = some (['o', 'k'] ++ '\n' :: cancellationTag ++
        ['s', 'i', 'c', 'k'])) ∧
    (cancel_appointment
        [⟨1, 1, 2, 600, 30, AppointmentStatus.completed, none, none, none, 0⟩]
        1 ⟨9, UserRole.admin⟩ none 5).1 =
      Except.error (SchedError.cannotCancel AppointmentStatus.completed) := by
  have h := cancel_validation_and_notes
    [⟨1, 1, 2, 600, 30, AppointmentStatus.scheduled, none, some ['o', 'k'],
      none, 0⟩] 1 ⟨9, UserRole.admin⟩ (some ['s', 'i', 'c', 'k']) 5
    ⟨1, 1, 2, 600, 30, AppointmentStatus.scheduled, none, some ['o', 'k'],
      none, 0⟩ (by decide) (by decide)
  have h2 := cancel_validation_and_notes
    [⟨1, 1, 2, 600, 30, AppointmentStatus.completed, none, none, none, 0⟩]
    1 ⟨9, UserRole.admin⟩ none 5
    ⟨1, 1, 2, 600, 30, AppointmentStatus.completed, none, none, none, 0⟩
    (by decide) (by decide)
  constructor
  · obtain ⟨a2, hok, hnotes⟩ := h.2.2.2.2 ['s', 'i', 'c', 'k'] (by decide)
      rfl (by decide) (by decide) (by decide)
    exact ⟨a2, hok, by simpa using hnotes⟩
  · exact h2.1.mpr (by decide)

/-- C10: cancelling a cancellable appointment with no reason changes only the
status (to CANCELLED) and `updated_at`; with a reason, the patient, dentist,
time, duration and reason fields are likewise all preserved. -/
theorem cancel_frame (db : List Appointment) (appointment_id : Nat) (u : User)
    (reason : Option (List Char)) (now : Int) (a : Appointment)
    (hfind : db.find? (fun x => x.id == appointment_id) = some a)
    (hauth : check_appointment_modification_access a u = true)
    (hcanc : a.can_be_cancelled = true) :
    (reason = none →
      (cancel_appointment db appointment_id u reason now).1 =
        Except.ok ({ a with
          status := AppointmentStatus.cancelled
          updated_at := now })) ∧
    (∀ r, reason = some r →
      ∃ a2, (cancel_appointment db appointment_id u reason now).1 =
        Except.ok a2 ∧
        a2.patient_id = a.patient_id ∧ a2.dentist_id = a.dentist_id ∧
        a2.scheduled_time = a.scheduled_time ∧
        a2.duration_minutes = a.duration_minutes ∧
        a2.reason = a.reason ∧ a2.status = AppointmentStatus.cancelled ∧
        a2.updated_at = now) := by
  constructor
  · intro hres
    subst hres
    unfold cancel_appointment repoUpdate
    simp only [hfind, hauth, hcanc, Bool.not_true, Bool.false_eq_true,
      if_false]
    rfl
  · intro r hres
    subst hres
    unfold cancel_appointment repoUpdate
    simp only [hfind, hauth, hcanc, Bool.not_true, Bool.false_eq_true,
      if_false]
    exact ⟨_, rfl, rfl, rfl, rfl, rfl, rfl, rfl, rfl⟩

/-- Witness for C10: a no-reason cancel of a CONFIRMED appointment keeps
every field except status and `updated_at`. -/
theorem cancel_frame_witness :
    (cancel_appointment
      [⟨1, 7, 2, 600, 30, AppointmentStatus.confirmed, some ['x'],
        some ['y'], some 3, 0⟩] 1 ⟨9, UserRole.receptionist⟩ none 11).1 =
      Except.ok ⟨1, 7, 2, 600, 30, AppointmentStatus.cancelled, some ['x'],
        some ['y'], some 3, 11⟩ := by
  have h := cancel_frame
    [⟨1, 7, 2, 600, 30, AppointmentStatus.confirmed, some ['x'], some ['y'],
      some 3, 0⟩] 1 ⟨9, UserRole.receptionist⟩ none 11
    ⟨1, 7, 2, 600, 30, AppointmentStatus.confirmed, some ['x'], some ['y'],
      some 3, 0⟩ (by decide) (by decide) (by decide)
  exact h.1 rfl

/-- C5: the EMAIL reminder is planned iff `scheduled_time - 24h` is strictly
in the future and the SMS reminder iff `scheduled_time - 2h` is; hence an
appointment under 2 hours out yields no reminders, one between 2 and 24
hours out yields only the SMS reminder, and one more than 24 hours out
yields both. -/
theorem reminder_planning_policy (a : Appointment) (now : Int) :
    ((⟨ReminderType.email, a.scheduled_time - 1440⟩ : Reminder) ∈
        create_automatic_reminders a now ↔ now < a.scheduled_time - 1440) ∧
    ((⟨ReminderType.sms, a.scheduled_time - 120⟩ : Reminder) ∈
        create_automatic_reminders a now ↔ now < a.scheduled_time - 120) ∧
    (a.scheduled_time - now < 120 → create_automatic_reminders a now = []) ∧
    (120 < a.scheduled_time - now → a.scheduled_time - now ≤ 1440 →
      create_automatic_reminders a now =
        [⟨ReminderType.sms, a.scheduled_time - 120⟩]) ∧
    (1440 < a.scheduled_time - now →
      create_automatic_reminders a now =
        [⟨ReminderType.email, a.scheduled_time - 1440⟩,
         ⟨ReminderType.sms, a.scheduled_time - 120⟩]) := by
  unfold create_automatic_reminders
  refine ⟨?_, ?_, ?_, ?_, ?_⟩
  · by_cases h1 : now < a.scheduled_time - 1440 <;>
      by_cases h2 : now < a.scheduled_time - 120 <;>
      simp [h1, h2]
  · by_cases h1 : now < a.scheduled_time - 1440 <;>
      by_cases h2 : now < a.scheduled_time - 120 <;>
      simp [h1, h2]
  · intro h
    rw [if_neg (by omega), if_neg (by omega)]
    rfl
  · intro h1 h2
    rw [if_neg (by omega), if_pos (by omega)]
    rfl
  · intro h
    rw [if_pos (by omega), if_pos (by omega)]
    rfl

/-- Witness for C5 at concrete offsets: 1 hour out gives no reminders, 3
hours out only the SMS reminder, 48 hours out both. -/
theorem reminder_planning_policy_witness :
    create_automatic_reminders
      ⟨1, 1, 2, 60, 30, AppointmentStatus.scheduled, none, none, none, 0⟩ 0
      = [] ∧
    create_automatic_reminders
      ⟨1, 1, 2, 180, 30, AppointmentStatus.scheduled, none, none, none, 0⟩ 0
      = [⟨ReminderType.sms, 60⟩] ∧
    create_automatic_reminders
      ⟨1, 1, 2, 2880, 30, AppointmentStatus.scheduled, none, none, none, 0⟩ 0
      = [⟨ReminderType.email, 1440⟩, ⟨ReminderType.sms, 2760⟩] := by
  refine ⟨?_, ?_, ?_⟩
  · exact (reminder_planning_policy
      ⟨1, 1, 2, 60, 30, AppointmentStatus.scheduled, none, none, none, 0⟩
      0).2.2.1 (by decide)
  · exact (reminder_planning_policy
      ⟨1, 1, 2, 180, 30, AppointmentStatus.scheduled, none, none, none, 0⟩
      0).2.2.2.1 (by decide) (by decide)
  · exact (reminder_planning_policy
      ⟨1, 1, 2, 2880, 30, AppointmentStatus.scheduled, none, none, none, 0⟩
      0).2.2.2.2 (by decide)

theorem slotAvailable_iff (existing : List Appointment) (cur slotEnd : Int) :
    slotAvailable existing cur slotEnd = true ↔
      ∀ apt ∈ existing,
        ¬ overlapsSpec apt.scheduled_time apt.end_time cur slotEnd := by
  unfold slotAvailable overlapsSpec
  simp only [List.all_eq_true, Bool.or_eq_true, decide_eq_true_eq]
  constructor
  · intro h apt hm
    have := h apt hm
    omega
  · intro h apt hm
    have := h apt hm
    omega

/-- With enough fuel and a positive duration, the slot loop produces exactly
the grid `[cur + i*d, cur + (i+1)*d)` for `i` below `(endDT - cur) / d`. -/
theorem slotLoop_eq_grid (existing : List Appointment) (endDT d : Int)
    (hd : 0 < d) :
    ∀ fuel, ∀ cur : Int, (endDT - cur).toNat < fuel →
      slotLoop existing endDT d cur fuel =
        (List.range ((endDT - cur).toNat / d.toNat)).map
          (slotAt existing cur d) := by
  intro fuel
  induction fuel with
  | zero =>
    intro cur h
    omega
  | succ fuel ih =>
    intro cur hfuel
    by_cases h1 : cur < endDT
    · by_cases h2 : endDT < cur + d
      · have hdiv : (endDT - cur).toNat / d.toNat = 0 :=
          Nat.div_eq_of_lt (by omega)
        simp only [slotLoop, if_pos h1, if_pos h2, hdiv, List.range_zero,
          List.map_nil]
      · have hle : cur + d ≤ endDT := by omega
        have ih2 := ih (cur + d) (by omega)
        have hK : (endDT - cur).toNat / d.toNat =
            ((endDT - (cur + d)).toNat / d.toNat) + 1 := by
          have h0 : 0 < d.toNat := by omega
          have hba : d.toNat ≤ (endDT - cur).toNat := by omega
          rw [Nat.div_eq_sub_div h0 hba]
          have heq : (endDT - cur).toNat - d.toNat = (endDT - (cur + d)).toNat := by
            omega
          rw [heq]
        simp only [slotLoop, if_pos h1, if_neg h2]
        rw [ih2, hK, List.range_succ_eq_map, List.map_cons, List.map_map]
        congr 1
        · simp [slotAt]
        · apply List.map_congr_left
          intro i _
          unfold slotAt
          simp only [Function.comp_apply]
          have e1 : cur + (↑(i + 1) : Int) * d = cur + d + ↑i * d := by
            push_cast
            ring
          have e2 : cur + ((↑(i + 1) : Int) + 1) * d = cur + d + (↑i + 1) * d := by
            push_cast
            ring
          rw [e1, e2]
    · have hz : (endDT - cur).toNat = 0 := by omega
      simp only [slotLoop, if_neg h1, hz, Nat.zero_div, List.range_zero,
        List.map_nil]

/-- C4: for a positive slot duration the availability computation returns
exactly the grid of `⌊window / d⌋` slots `[workStart + i*d,
workStart + (i+1)*d)` in ascending start order; no slot ends past `workEnd`
(a final partial interval is dropped); and each slot is available iff it
overlaps none of the fetched non-terminal appointments of the day. -/
theorem availability_grid_spec (db : List Appointment) (dentist_id : Nat)
    (s e d : Int) (hd : 0 < d) :
    (check_availability db dentist_id s e d =
      (List.range ((e - s).toNat / d.toNat)).map
        (slotAt (fetchDayAppointments db dentist_id s e) s d)) ∧
    (check_availability db dentist_id s e d).length =
      (e - s).toNat / d.toNat ∧
    (∀ sl ∈ check_availability db dentist_id s e d,
      sl.end_time ≤ e ∧ sl.start_time < sl.end_time ∧
      sl.end_time = sl.start_time + d) ∧
    List.Pairwise (fun x y => x.start_time < y.start_time)
      (check_availability db dentist_id s e d) ∧
    (∀ sl ∈ check_availability db dentist_id s e d,
      (sl.available = true ↔
        ∀ apt ∈ fetchDayAppointments db dentist_id s e,
          ¬ overlapsSpec apt.scheduled_time apt.end_time
            sl.start_time sl.end_time)) := by
  have hgrid : check_availability db dentist_id s e d =
      (List.range ((e - s).toNat / d.toNat)).map
        (slotAt (fetchDayAppointments db dentist_id s e) s d) := by
    unfold check_availability
    exact slotLoop_eq_grid _ e d hd ((e - s).toNat + 1) s (by omega)
  have hmem : ∀ sl ∈ check_availability db dentist_id s e d,
      ∃ i : Nat, i < (e - s).toNat / d.toNat ∧
        sl = slotAt (fetchDayAppointments db dentist_id s e) s d i := by
    intro sl hsl
    rw [hgrid] at hsl
    rcases List.mem_map.mp hsl with ⟨i, hi, rfl⟩
    exact ⟨i, List.mem_range.mp hi, rfl⟩
  refine ⟨hgrid, by rw [hgrid]; simp, ?_, ?_, ?_⟩
  · intro sl hsl
    rcases hmem sl hsl with ⟨i, hi, rfl⟩
    have hmul : (i + 1) * d.toNat ≤ (e - s).toNat := by
      calc (i + 1) * d.toNat ≤ ((e - s).toNat / d.toNat) * d.toNat :=
            Nat.mul_le_mul_right _ (by omega)
        _ ≤ (e - s).toNat := Nat.div_mul_le_self _ _
    have hcast : ((i + 1 : Nat) : Int) * d ≤ e - s := by
      have h1 : (((i + 1) * d.toNat : Nat) : Int) ≤ (((e - s).toNat : Nat) : Int) :=
        Int.ofNat_le.mpr hmul
      push_cast at h1
      rw [Int.toNat_of_nonneg (by omega)] at h1
      have hes : 0 ≤ e - s := by
        by_contra hneg
        have : (e - s).toNat = 0 := by omega
        rw [this] at hi
        simp at hi
      rw [Int.toNat_of_nonneg hes] at h1
      exact h1
    push_cast at hcast
    have hexp : (↑i + 1 : Int) * d = ↑i * d + d := by ring
    refine ⟨?_, ?_, ?_⟩
    · show s + (↑i + 1) * d ≤ e
      linarith
    · show s + ↑i * d < s + (↑i + 1) * d
      linarith
    · show s + (↑i + 1) * d = s + ↑i * d + d
      linarith
  · rw [hgrid]
    have hp : List.Pairwise (· < ·) (List.range ((e - s).toNat / d.toNat)) :=
      List.pairwise_lt_range _
    refine hp.map _ ?_
    intro i j hij
    show (slotAt (fetchDayAppointments db dentist_id s e) s d i).start_time <
      (slotAt (fetchDayAppointments db dentist_id s e) s d j).start_time
    show s + ↑i * d < s + ↑j * d
    have hij2 : (↑i : Int) * d < ↑j * d := by
      apply mul_lt_mul_of_pos_right _ hd
      exact_mod_cast hij
    linarith
  · intro sl hsl
    rcases hmem sl hsl with ⟨i, hi, rfl⟩
    unfold slotAt
    exact slotAvailable_iff _ _ _

/-- Witness for C4: with no stored appointments and window 08:00-18:00 at 30
minutes, the computation yields exactly 20 slots, all available. -/
theorem availability_grid_spec_witness :
    (check_availability [] 2 480 1080 30).length = 20 ∧
    (∀ sl ∈ check_availability [] 2 480 1080 30, sl.available = true) := by
  have h := availability_grid_spec [] 2 480 1080 30 (by decide)
  refine ⟨?_, ?_⟩
  · rw [h.2.1]
    decide
  · intro sl hsl
    rw [(h.2.2.2.2 sl hsl)]
    intro apt hapt
    simp [fetchDayAppointments] at hapt

theorem slotLoop_all_available (endDT d : Int) :
    ∀ fuel, ∀ cur : Int, ∀ sl ∈ slotLoop [] endDT d cur fuel,
      sl.available = true := by
  intro fuel
  induction fuel with
  | zero =>
    intro cur sl h
    simp [slotLoop] at h
  | succ fuel ih =>
    intro cur sl h
    unfold slotLoop at h
    split_ifs at h with h1 h2
    · simp at h
    · rcases List.mem_cons.mp h with hhead | htail
      · rw [hhead]
        rfl
      · exact ih (cur + d) sl htail
    · simp at h

/-- C9: the availability fetch only sees appointments whose `scheduled_time`
lies inside the queried window, so an appointment starting before `workStart`
is never fetched — and if every stored appointment starts before `workStart`,
every generated slot is reported available, even when such an appointment
extends into the window and overlaps a slot. -/
theorem availability_ignores_early_appointments (db : List Appointment)
    (dentist_id : Nat) (s e d : Int) :
    (∀ apt ∈ db, apt.scheduled_time < s →
      apt ∉ fetchDayAppointments db dentist_id s e) ∧
    ((∀ apt ∈ db, apt.scheduled_time < s) →
      ∀ sl ∈ check_availability db dentist_id s e d,
        sl.available = true) := by
  constructor
  · intro apt _ hlt hmem
    unfold fetchDayAppointments at hmem
    rw [List.mem_filter] at hmem
    simp only [Bool.and_eq_true, decide_eq_true_eq] at hmem
    omega
  · intro hall
    have hfe : fetchDayAppointments db dentist_id s e = [] := by
      rw [fetchDayAppointments, List.filter_eq_nil_iff]
      intro apt hm
      simp only [Bool.and_eq_true, decide_eq_true_eq, not_and]
      intro _ hs
      exact absurd hs (by have := hall apt hm; omega)
    unfold check_availability
    rw [hfe]
    exact slotLoop_all_available e d _ s

/-- Witness for C9: a 07:30-08:30 SCHEDULED appointment of the dentist is
outside the 08:00-18:00 fetch window, overlaps the first slot
[08:00, 08:30), and that slot is nevertheless reported available. -/
theorem availability_ignores_early_appointments_witness :
    (⟨1, 1, 2, 450, 60, AppointmentStatus.scheduled, none, none, none, 0⟩ :
        Appointment) ∉
      fetchDayAppointments
        [⟨1, 1, 2, 450, 60, AppointmentStatus.scheduled, none, none, none, 0⟩]
        2 480 1080 ∧
    overlapsSpec 450 510 480 510 ∧
    (check_availability
        [⟨1, 1, 2, 450, 60, AppointmentStatus.scheduled, none, none, none, 0⟩]
        2 480 1080 30).head? =
      some ⟨480, 510, true⟩ := by
  have h := availability_ignores_early_appointments
    [⟨1, 1, 2, 450, 60, AppointmentStatus.scheduled, none, none, none, 0⟩]
    2 480 1080 30
  refine ⟨?_, by decide, by decide⟩
  exact h.1
    ⟨1, 1, 2, 450, 60, AppointmentStatus.scheduled, none, none, none, 0⟩
    (by decide) (by decide)

/-- Counterexample to C8 as stated: the practitioner id resolves to an
existing user with role ADMIN — a user that does not hold the dentist role —
yet create succeeds (Monday 10:00, empty table) instead of failing with the
not-a-practitioner validation error. -/
theorem create_accepts_admin_counterexample :
    UserRole.admin ≠ UserRole.dentist ∧
    List.find? (fun u => u.id == 2) [(⟨2, UserRole.admin⟩ : User)] =
      some ⟨2, UserRole.admin⟩ ∧
    (create_appointment [1] [⟨2, UserRole.admin⟩] []
        ⟨1, 2, 600, 30, none, none⟩ ⟨9, UserRole.receptionist⟩ 5 0).1 =
      Except.ok
        (⟨5, 1, 2, 600, 30, AppointmentStatus.scheduled, none, none,
          some 9, 0⟩, [⟨ReminderType.sms, 480⟩]) := by
  decide

/-- C8 (amended): when the practitioner id resolves to an existing user
holding neither the dentist role nor the admin role, create fails with the
not-a-practitioner validation error and no appointment is persisted. -/
theorem create_requires_practitioner_role (patients : List Nat)
    (users : List User) (db : List Appointment) (req : AppointmentCreate)
    (current_user : User) (newId : Nat) (now : Int) (dentist : User)
    (hpat : req.patient_id ∈ patients)
    (hfind : users.find? (fun u => u.id == req.dentist_id) = some dentist)
    (hrole1 : dentist.role ≠ UserRole.dentist)
    (hrole2 : dentist.role ≠ UserRole.admin) :
    (create_appointment patients users db req current_user newId now).1 =
      Except.error SchedError.notAPractitioner ∧
    (create_appointment patients users db req current_user newId now).2 =
      db := by
  unfold create_appointment
  rw [if_neg (by simp [hpat])]
  simp only [hfind]
  rw [if_pos ⟨hrole1, hrole2⟩]
  exact ⟨rfl, rfl⟩

/-- Witness for the amended C8: a receptionist-role user in the practitioner
slot is rejected and the table stays empty. -/
theorem create_requires_practitioner_role_witness :
    (create_appointment [1] [⟨2, UserRole.receptionist⟩] []
        ⟨1, 2, 600, 30, none, none⟩ ⟨9, UserRole.admin⟩ 5 0).1 =
      Except.error SchedError.notAPractitioner ∧
    (create_appointment [1] [⟨2, UserRole.receptionist⟩] []
        ⟨1, 2, 600, 30, none, none⟩ ⟨9, UserRole.admin⟩ 5 0).2 = [] := by
  exact create_requires_practitioner_role [1] [⟨2, UserRole.receptionist⟩] []
    ⟨1, 2, 600, 30, none, none⟩ ⟨9, UserRole.admin⟩ 5 0
    ⟨2, UserRole.receptionist⟩ (by decide) (by decide) (by decide) (by decide)

end OdontoLab

